import Mathlib

/-
Shallow embedding of `annotate_labels.py` (class `LabelAnnotator`).

The registry client (`girder_client`), the decoders (PIL / pytiff) and local
file transfer are external collaborators; they are modelled as explicit
function parameters (an oracle record `GClient`, decoder results passed as
`Except` values).  Everything else is translated directly from the source.

Python error mapping:
  `ValueError` messages are mirrored by dedicated `AError` constructors,
  `girder_client.HttpError` by `ClientErr.http` with its numeric status,
  any other exception raised by a registry call by `ClientErr.transport`,
  and the unguarded `overlay_files[0]` on an empty list by `AError.indexError`.
-/

namespace AnnotateLabels

/-- Color values as read from the colormap JSON file; the code treats them as
opaque data that is handed to the drawing collaborator. -/
abbrev Color := String

/-- The colormap: the JSON object mapping annotation names to colors, as an
ordered association list (lookup mirrors `self._colormap[name]`). -/
abbrev Colormap := List (String × Color)

/-- One geometric element of a record, as read by `_draw_annotations`:
a JSON object with a `type` tag and type-specific geometry fields. -/
structure Element where
  type : String
  center : List Int := []
  width : Int := 0
  height : Int := 0
  points : List (List Int) := []
  deriving DecidableEq, Repr

/-- The inner JSON object `record['annotation']`: an optional `name` (the
label; `none` models a missing key or a null value) and the element list. -/
structure AnnBody where
  name : Option String := none
  elements : List Element := []
  deriving DecidableEq, Repr

/-- One full record as returned by the registry: the code only reads its inner
object (`record['annotation']`). -/
structure AnnRecord where
  body : AnnBody
  deriving DecidableEq, Repr

/-- One summary entry from `GET annotation?itemId=...`: the code only reads
its `_id`. -/
structure AnnSummary where
  id : String
  deriving DecidableEq, Repr

/-- One file descriptor of an item (`_id`, `name`, `mimeType` are the fields
the code reads). -/
structure GFile where
  id : String
  name : String
  mimeType : String
  deriving DecidableEq, Repr

/-- The `largeImage` sub-object of an item, when present. -/
structure LargeImage where
  fileId : String
  deriving DecidableEq, Repr

/-- An item descriptor as returned by `client.getItem`; `none` models a
missing `largeImage` key (or a missing `fileId` under it): both are folded
into the same `KeyError` branch of `_update_overlay_file`. -/
structure Item where
  largeImage : Option LargeImage := none
  deriving DecidableEq, Repr

/-- One overlay record from the `overlay` endpoint: the code reads `itemId`
and `overlayItemId`. -/
structure Overlay where
  itemId : String
  overlayItemId : String
  deriving DecidableEq, Repr

/-- Errors raised by registry calls: `girder_client.HttpError` carries a
numeric status; every other exception class is `transport` (never caught by
the code). -/
inductive ClientErr where
  | http (status : Nat)
  | transport (msg : String)
  deriving DecidableEq, Repr

/-- Abstract error kinds of the program, one constructor per `raise` site
(payloads mirror the data interpolated into each message). -/
inductive AError where
  | noOverlayForItem (item_id : String)
  | multipleOverlays
  | noFilesForOverlay (overlay_item_id : String)
  | multipleFilesForOverlay (overlay_item_id : String)
  | indexError
  | noColorMapping
  | noColorForLabel (name : String)
  | invalidElementType (t : String)
  | client (e : ClientErr)
  deriving DecidableEq, Repr

/-- The registry client collaborator, one field per distinct call shape the
code makes.  Only the full-annotation-list call can fail visibly to the code
(it is the only call wrapped in a `try`); the other calls are modelled as
total oracles. -/
structure GClient where
  getOverlayById : String → Overlay
  getOverlaysByItem : String → List Overlay
  getFiles : String → List GFile
  getItem : String → Item
  getAnnsForItem : String → Except ClientErr (List AnnRecord)
  listAnns : String → List AnnSummary
  getAnnById : String → AnnRecord

/-- The mutable attributes of a `LabelAnnotator` instance.  `girder_id` is
the attribute `_girder_id` initialised by `__init__` and read by the
`girder_id` getter; `gider_id` is the distinct attribute `_gider_id` that the
setter actually assigns (`none` models the attribute being absent). -/
structure AnnotatorState where
  colormap : Option Colormap
  gider_id : Option String
  girder_id : Option String
  is_overlay_id : Bool
  item_id : Option String
  overlay_item_id : Option String
  overlay_file : Option GFile
  annotations : Option (List AnnRecord)
  deriving DecidableEq, Repr

/-- The state established by `__init__` (client excluded: it is passed to
each operation separately). -/
def initState : AnnotatorState where
  colormap := none
  gider_id := none
  girder_id := none
  is_overlay_id := false
  item_id := none
  overlay_item_id := none
  overlay_file := none
  annotations := none

/-- The public `girder_id` getter: returns the attribute `_girder_id`. -/
def girderIdGet (st : AnnotatorState) : Option String :=
  st.girder_id

/-- Character-level prefix test (first argument: the candidate prefix). -/
def isPrefixList : List Char → List Char → Bool
  | [], _ => true
  | _ :: _, [] => false
  | a :: as, b :: bs => a == b && isPrefixList as bs

/-- Python `s.startswith(p)`: `p`'s characters are an initial segment of
`s`'s. -/
def startsWith (s p : String) : Bool :=
  isPrefixList p.data s.data

/-- Line-by-line translation of `_update_overlay_file` (the assignment
target `_overlay_file` is returned as the result value).  The final
`overlay_files[0]` is unguarded in the source and raises `IndexError` on an
empty candidate list, modelled by `AError.indexError`. -/
def updateOverlayFile (c : GClient) (overlay_item_id : Option String) :
    Except AError (Option GFile) :=
  match overlay_item_id with
  | none => .ok none
  | some oid =>
    let files := c.getFiles oid
    if files.isEmpty then
      .error (.noFilesForOverlay oid)
    else
      let imgs := files.filter (fun o => startsWith o.mimeType "image")
      let imgs2 :=
        if imgs.length > 1 then
          let fileId := (c.getItem oid).largeImage.map LargeImage.fileId
          imgs.filter (fun o => some o.id != fileId)
        else imgs
      if imgs2.length > 1 then
        .error (.multipleFilesForOverlay oid)
      else
        match imgs2 with
        | [] => .error .indexError
        | f :: _ => .ok (some f)

/-- Translation of `_update_annotations` (the assignment target
`_annotations` is returned as the result value).  The `except HttpError`
clause recovers only status 400; any other `HttpError` is re-raised and any
non-`HttpError` exception is never caught.  The fallback accumulation loop
over the summaries is the map of the per-id fetch over the listing. -/
def updateAnns (c : GClient) (item_id : Option String) :
    Except AError (Option (List AnnRecord)) :=
  match item_id with
  | none => .ok none
  | some iid =>
    match c.getAnnsForItem iid with
    | .ok anns => .ok (some anns)
    | .error (.http status) =>
      if status = 400 then
        .ok (some ((c.listAnns iid).map (fun s => c.getAnnById s.id)))
      else
        .error (.client (.http status))
    | .error (.transport m) => .error (.client (.transport m))

/-- The resolution branch of the `girder_id` setter (lines guarded by
`girder_id is not None`): yields the pair `(item_id, overlay_item_id)`. -/
def resolvePair (c : GClient) (is_ov : Bool) (g : String) :
    Except AError (String × String) :=
  if is_ov then
    let overlay := c.getOverlayById g
    .ok ( overlay.itemId, overlay.overlayItemId)
  else
    match c.getOverlaysByItem g with
    | [] => .error (.noOverlayForItem g)
    | [ov] => .ok (g, ov.overlayItemId)
    | _ :: _ :: _ => .error .multipleOverlays

/-- The tail of the `girder_id` setter, after the id fields are assigned:
the calls `self._update_overlay_file()` and `self._update_annotations()`
in order, each storing its result field. -/
def afterResolve (c : GClient) (st1 : AnnotatorState) :
    Except AError AnnotatorState :=
  match updateOverlayFile c st1.overlay_item_id with
  | .error e => .error e
  | .ok f =>
    match updateAnns c st1.item_id with
    | .error e => .error e
    | .ok anns => .ok { st1 with overlay_file := f, annotations := anns }

/-- The `girder_id` setter as a state transition.  Note the source assigns
the misspelled attribute `_gider_id` (never `_girder_id`), clears
`_item_id` / `_overlay_item_id`, resolves the pair when the new id is not
null, then runs `_update_overlay_file` and `_update_annotations`. -/
def setGirderId (c : GClient) (st : AnnotatorState) :
    Option String → Except AError AnnotatorState
  | none =>
    afterResolve c { st with gider_id := none, item_id := none, overlay_item_id := none }
  | some g =>
    match resolvePair c st.is_overlay_id g with
    | .error e => .error e
    | .ok (iid, oid) =>
      afterResolve c
        { st with gider_id := some g, item_id := some iid, overlay_item_id := some oid }

/-- The `colormap` setter: file reading and JSON parsing are external, so the
parsed mapping (or `none` for a falsy filename) is passed directly. -/
def setColormap (st : AnnotatorState) (cm : Option Colormap) : AnnotatorState :=
  { st with colormap := cm }

/-- The `is_overlay_id` setter. -/
def setIsOverlayId (st : AnnotatorState) (b : Bool) : AnnotatorState :=
  { st with is_overlay_id := b }

/-- One public mutation of a `LabelAnnotator` instance. -/
inductive Op where
  | opColormap (cm : Option Colormap)
  | opIsOverlayId (b : Bool)
  | opGirderId (gid : Option String)

/-- Apply one mutation. -/
def applyOp (c : GClient) (st : AnnotatorState) : Op → Except AError AnnotatorState
  | .opColormap cm => .ok (setColormap st cm)
  | .opIsOverlayId b => .ok (setIsOverlayId st b)
  | .opGirderId gid => setGirderId c st gid

/-- Run a sequence of mutations; an exception aborts the sequence. -/
def runOps (c : GClient) (st : AnnotatorState) : List Op → Except AError AnnotatorState
  | [] => .ok st
  | op :: ops =>
    match applyOp c st op with
    | .error e => .error e
    | .ok st1 => runOps c st1 ops

/-- The key function of `_annotations_iterator`: the record's label, `none`
when the `name` key is absent. -/
def keyfunc (a : AnnRecord) : Option String :=
  a.body.name

/-- One step of run formation: prepend an element to an already grouped
tail, merging into the head run when the keys agree. -/
def groupbyCons {α κ : Type} [DecidableEq κ] (key : α → κ) (a : α) :
    List (κ × List α) → List (κ × List α)
  | [] => [(key a, [a])]
  | (k, run) :: rest =>
    if key a = k then (key a, a :: run) :: rest
    else (key a, [a]) :: (k, run) :: rest

/-- `itertools.groupby`: the list of maximal runs of consecutive elements
sharing a key, each tagged with that key, in source order. -/
def groupby {α κ : Type} [DecidableEq κ] (key : α → κ) : List α → List (κ × List α)
  | [] => []
  | a :: l => groupbyCons key a (groupby key l)

/-- The loop body of `_annotations_iterator` over the grouped runs: runs with
key `None` are skipped, otherwise the color is looked up (a missing entry
raises).  A generator both yields and can subsequently raise, so the result
is the pair (groups yielded before any failure, the failure if one occurs). -/
def processGroups (cm : Colormap) :
    List (Option String × List AnnRecord) →
      List (Color × List AnnRecord) × Option AError
  | [] => ([], none)
  | (none, _) :: rest => processGroups cm rest
  | (some name, grp) :: rest =>
    match cm.lookup name with
    | none => ([], some (.noColorForLabel name))
    | some color =>
      let tail := processGroups cm rest
      ((color, grp) :: tail.1, tail.2)

/-- `_annotations_iterator` as a whole: an unset annotation list yields
nothing; otherwise an unset colormap raises before anything is yielded;
otherwise the grouped runs are processed in order. -/
def annsIterator (colormap : Option Colormap) (anns : Option (List AnnRecord)) :
    List (Color × List AnnRecord) × Option AError :=
  match anns with
  | none => ([], none)
  | some l =>
    match colormap with
    | none => ([], some .noColorMapping)
    | some cm => processGroups cm (groupby keyfunc l)

/-- A drawing-collaborator call issued by `_draw_annotations`: one PIL
`ImageDraw` method invocation with its point list and colors. -/
inductive DrawCmd where
  | point (xy : List (Int × Int)) (fill : Color)
  | rectangle (xy : List (Int × Int)) (outline : Color) (fill : Color)
  | polygon (xy : List (Int × Int)) (outline : Color) (fill : Color)
  deriving DecidableEq, Repr

/-- `tuple(point[:2])`: the first two coordinates of a coordinate list (the
code, like PIL, only ever uses 2-D points; coordinates beyond the second are
discarded and absent coordinates default to 0 instead of raising). -/
def xyOf (l : List Int) : Int × Int :=
  (l.getD 0 0, l.getD 1 0)

/-- The element dispatch of `_draw_annotations`: the drawing call issued for
one element of color `color`, or the `ValueError` for an unknown type tag. -/
def drawElement (color : Color) (e : Element) : Except AError DrawCmd :=
  if e.type = "point" then
    .ok (.point [xyOf e.center] color)
  else if e.type = "rectangle" then
    .ok (.rectangle
      [xyOf e.center,
       (e.center.getD 0 0 + e.width, e.center.getD 1 0 + e.height)]
      color color)
  else if e.type = "polyline" then
    .ok (.polygon (e.points.map xyOf) color color)
  else
    .error (.invalidElementType e.type)

/-- Pixels affected by one drawing call, modelling the PIL collaborator per
the spec: a `point` call colors exactly its listed pixels and a filled
`rectangle` call colors every pixel of the axis-aligned box between its two
corners, outline included.  Polygon interior fill is beyond this model (no
claim depends on it); its vertex list stands in for it. -/
def DrawCmd.covers : DrawCmd → Int × Int → Prop
  | .point xys _, p => p ∈ xys
  | .rectangle (c0 :: c1 :: []) _ _, p =>
    c0.1 ≤ p.1 ∧ p.1 ≤ c1.1 ∧ c0.2 ≤ p.2 ∧ p.2 ≤ c1.2
  | .rectangle _ _ _, _ => False
  | .polygon xys _ _, p => p ∈ xys

/-- An exception as classified by the `except (IOError, OSError)` clauses of
the `image` property: `ioErr` is the caught class, `otherErr` anything
else (e.g. an `ImportError` from the fallback imports). -/
inductive PyExn where
  | ioErr (msg : String)
  | otherErr (msg : String)
  deriving DecidableEq, Repr

/-- The decode portion of the `image` property over an already downloaded
temporary file.  `pillow` is the outcome of `Image.open`, `pytiff` the
outcome of the whole fallback block (imports, `pytiff.Tiff`, array
conversion).  The second component records whether `image_file.close()` was
executed before the property returned or its exception propagated: the
source reaches that line only after a successful decode, and the bare
`raise` in the inner handler re-raises the exception being handled there,
namely the fallback's. -/
def imageOp {ρ : Type} (pillow : Except PyExn ρ) (pytiff : Except PyExn ρ) :
    Except PyExn ρ × Bool :=
  match pillow with
  | .ok img => (.ok img, true)
  | .error (.otherErr m) => (.error (.otherErr m), false)
  | .error (.ioErr _) =>
    match pytiff with
    | .ok img => (.ok img, true)
    | .error e => (.error e, false)

/-! Concrete values used to evaluate the definitions on sample inputs. -/

/-- A record labeled `A`. -/
def annA : AnnRecord := ⟨⟨some "A", []⟩⟩

/-- A second record labeled `A`, distinguishable from `annA`. -/
def annA2 : AnnRecord := ⟨⟨some "A", [⟨"point", [1, 2], 0, 0, []⟩]⟩⟩

/-- A record labeled `B`. -/
def annB : AnnRecord := ⟨⟨some "B", []⟩⟩

/-- An unlabeled record (no `name` key). -/
def annU : AnnRecord := ⟨⟨none, []⟩⟩

/-- A colormap containing `A` and `B`. -/
def cmAB : Colormap := [("A", "red"), ("B", "blue")]

/-- A colormap containing only `A`. -/
def cmA : Colormap := [("A", "red")]

/-- A raster overlay file descriptor. -/
def demoFile : GFile := ⟨"f1", "overlay.png", "image/png"⟩

/-- An overlay record linking base item `item1` to overlay item `ov1`. -/
def demoOverlay : Overlay := ⟨"item1", "ov1"⟩

/-- A registry on which the whole pipeline succeeds. -/
def demoClient : GClient where
  getOverlayById := fun _ => demoOverlay
  getOverlaysByItem := fun _ => [demoOverlay]
  getFiles := fun _ => [demoFile]
  getItem := fun _ => ⟨none⟩
  getAnnsForItem := fun _ => .ok [annA]
  listAnns := fun _ => []
  getAnnById := fun _ => annA

/-- A registry that associates no overlay with any item. -/
def emptyClient : GClient :=
  { demoClient with getOverlaysByItem := fun _ => [] }

/-- A registry whose full-annotation-list call fails with status 400 and
which serves two annotation summaries. -/
def fallbackClient : GClient :=
  { demoClient with
      getAnnsForItem := fun _ => .error (.http 400)
      listAnns := fun _ => [⟨"a1"⟩, ⟨"a2"⟩]
      getAnnById := fun i => if i = "a1" then annA else annB }

/-- A registry whose full-annotation-list call fails with status 500. -/
def errorClient : GClient :=
  { demoClient with getAnnsForItem := fun _ => .error (.http 500) }

/-- A registry whose overlay item has one file, none of media type image. -/
def nonImageClient : GClient :=
  { demoClient with getFiles := fun _ => [⟨"f9", "data.bin", "application/octet-stream"⟩] }

/-- A rectangle element centered (in the source's loose sense) at the
origin, of width and height 5. -/
def rectDemo : Element := ⟨"rectangle", [0, 0], 5, 5, []⟩

/-- The state reached from `initState` by a successful assignment of
identifier `item1` against `demoClient`. -/
def demoFinal : AnnotatorState where
  colormap := none
  gider_id := some "item1"
  girder_id := none
  is_overlay_id := false
  item_id := some "item1"
  overlay_item_id := some "ov1"
  overlay_file := some demoFile
  annotations := some [annA]

/-- Like `demoFinal`, with the colormap `cmAB` set first. -/
def demoFinalCm : AnnotatorState :=
  { demoFinal with colormap := some cmAB }

/-! Helper lemmas about run grouping. -/

/-- A nonempty list all of whose elements share one key is a single run. -/
theorem groupby_single_run {α κ : Type} [DecidableEq κ] (key : α → κ) (k : κ) :
    ∀ xs : List α, xs ≠ [] → (∀ a ∈ xs, key a = k) → groupby key xs = [(k, xs)] := by
  intro xs
  induction xs with
  | nil => intro h; exact absurd rfl h
  | cons a xs ih =>
    intro _ hhom
    have hak : key a = k := hhom a (List.mem_cons_self a xs)
    cases xs with
    | nil => simp [groupby, groupbyCons, hak]
    | cons b xs2 =>
      have hxs : groupby key (b :: xs2) = [(k, b :: xs2)] := by
        apply ih (by simp)
        intro x hx
        exact hhom x (List.mem_cons_of_mem a hx)
      show groupbyCons key a (groupby key (b :: xs2)) = [(k, a :: b :: xs2)]
      rw [hxs]
      simp [groupbyCons, hak]

/-- Prepending a homogeneous nonempty run whose key differs from the first
key of the remainder adds exactly one group in front. -/
theorem groupby_append_run {α κ : Type} [DecidableEq κ] (key : α → κ) (k : κ) :
    ∀ (xs rest : List α), xs ≠ [] → (∀ a ∈ xs, key a = k) →
      (∀ k2 g2 t, groupby key rest = (k2, g2) :: t → k2 ≠ k) →
      groupby key (xs ++ rest) = (k, xs) :: groupby key rest := by
  intro xs
  induction xs with
  | nil => intro rest h; exact absurd rfl h
  | cons a xs ih =>
    intro rest _ hhom hhead
    have hak : key a = k := hhom a (by simp)
    cases xs with
    | nil =>
      show groupbyCons key a (groupby key rest) = (k, [a]) :: groupby key rest
      rcases hg : groupby key rest with _ | ⟨⟨k2, g2⟩, t⟩
      · simp [groupbyCons, hak]
      · have hne : k2 ≠ k := hhead k2 g2 t hg
        have hne2 : ¬ key a = k2 := by
          rw [hak]
          exact fun hh => hne hh.symm
        simp [groupbyCons, hne2, hak]
        exact fun hh => hne hh.symm
    | cons b xs2 =>
      have hbody : groupby key ((b :: xs2) ++ rest) = (k, b :: xs2) :: groupby key rest := by
        apply ih rest (by simp) ?_ hhead
        intro x hx
        exact hhom x (List.mem_cons_of_mem a hx)
      show groupbyCons key a (groupby key ((b :: xs2) ++ rest))
          = (k, a :: b :: xs2) :: groupby key rest
      rw [hbody]
      simp [groupbyCons, hak]

/-- Joining a list of nonempty homogeneous runs with pairwise distinct
adjacent keys and regrouping recovers exactly those runs. -/
theorem groupby_runs_join {α κ : Type} [DecidableEq κ] (key : α → κ) :
    ∀ (runs : List (κ × List α)),
      (∀ r ∈ runs, r.2 ≠ []) →
      (∀ r ∈ runs, ∀ a ∈ r.2, key a = r.1) →
      List.Chain' (fun r s : κ × List α => r.1 ≠ s.1) runs →
      groupby key ((runs.map Prod.snd).flatten) = runs := by
  intro runs
  induction runs with
  | nil => intro _ _ _; rfl
  | cons r rest ih =>
    intro hne hhom hchain
    obtain ⟨hhead, htail⟩ := List.chain'_cons'.mp hchain
    have hrest : groupby key ((rest.map Prod.snd).flatten) = rest :=
      ih (fun x hx => hne x (List.mem_cons_of_mem r hx))
        (fun x hx => hhom x (List.mem_cons_of_mem r hx)) htail
    have hjoin : (((r :: rest).map Prod.snd).flatten : List α)
        = r.2 ++ (rest.map Prod.snd).flatten := by simp
    rw [hjoin, groupby_append_run key r.1 r.2 ((rest.map Prod.snd).flatten)
      (hne r (by simp)) (fun a ha => hhom r (by simp) a ha) ?_, hrest]
    · intro k2 g2 t hgb
      rw [hrest] at hgb
      subst hgb
      have hr1 : r.1 ≠ (k2, g2).1 := hhead (k2, g2) (by simp)
      exact fun hh => hr1 hh.symm

/-- Every key added by `groupbyCons` was already a key or is the new key. -/
theorem groupbyCons_key_mem {α κ : Type} [DecidableEq κ] (key : α → κ) (b : α) :
    ∀ (gl : List (κ × List α)) (k : κ) (g : List α),
      (k, g) ∈ gl → ∃ g2, (k, g2) ∈ groupbyCons key b gl := by
  intro gl k g hmem
  cases gl with
  | nil => simp at hmem
  | cons hd t =>
    obtain ⟨k1, g1⟩ := hd
    by_cases hbk : key b = k1
    · rcases List.mem_cons.mp hmem with heq | ht
      · have hk : k = k1 := congrArg Prod.fst heq
        have hkb : key b = k := by rw [hbk, hk]
        refine ⟨b :: g1, ?_⟩
        simp only [groupbyCons]
        rw [if_pos hbk, hkb]
        exact List.mem_cons_self _ _
      · refine ⟨g, ?_⟩
        simp only [groupbyCons]
        rw [if_pos hbk]
        exact List.mem_cons_of_mem _ ht
    · refine ⟨g, ?_⟩
      simp only [groupbyCons]
      rw [if_neg hbk]
      exact List.mem_cons_of_mem _ hmem

/-- The new element's key is always among the keys after `groupbyCons`. -/
theorem groupbyCons_key_new {α κ : Type} [DecidableEq κ] (key : α → κ) (b : α) :
    ∀ gl : List (κ × List α), ∃ g2, (key b, g2) ∈ groupbyCons key b gl := by
  intro gl
  cases gl with
  | nil => exact ⟨[b], by simp [groupbyCons]⟩
  | cons hd t =>
    obtain ⟨k1, g1⟩ := hd
    by_cases hbk : key b = k1
    · exact ⟨b :: g1, by simp [groupbyCons, hbk]⟩
    · exact ⟨[b], by simp [groupbyCons, hbk]⟩

/-- Every element of the list contributes its key to some run. -/
theorem groupby_key_mem {α κ : Type} [DecidableEq κ] (key : α → κ) :
    ∀ (l : List α) (a : α), a ∈ l → ∃ g, (key a, g) ∈ groupby key l := by
  intro l
  induction l with
  | nil => intro a h; simp at h
  | cons b l ih =>
    intro a hmem
    rcases List.mem_cons.mp hmem with heq | ht
    · subst heq
      exact groupbyCons_key_new key a (groupby key l)
    · obtain ⟨g, hg⟩ := ih a ht
      exact groupbyCons_key_mem key b (groupby key l) (key a) g hg

/-- If some run key has no colormap entry, the group loop raises a
missing-color error naming a label absent from the colormap. -/
theorem processGroups_missing (cm : Colormap) :
    ∀ (groups : List (Option String × List AnnRecord)) (n : String)
      (g : List AnnRecord),
      (some n, g) ∈ groups → cm.lookup n = none →
      ∃ m, (processGroups cm groups).2 = some (.noColorForLabel m)
        ∧ cm.lookup m = none := by
  intro groups
  induction groups with
  | nil => intro n g h; simp at h
  | cons hd rest ih =>
    intro n g hmem hnone
    obtain ⟨k1, g1⟩ := hd
    cases k1 with
    | none =>
      have hrest : (some n, g) ∈ rest := by
        rcases List.mem_cons.mp hmem with heq | ht
        · exact absurd (congrArg Prod.fst heq) (by simp)
        · exact ht
      simpa [processGroups] using ih n g hrest hnone
    | some n1 =>
      rcases hl : cm.lookup n1 with _ | c
      · exact ⟨n1, by simp [processGroups, hl], hl⟩
      · have hrest : (some n, g) ∈ rest := by
          rcases List.mem_cons.mp hmem with heq | ht
          · have hn : n = n1 := Option.some.inj (congrArg Prod.fst heq)
            rw [hn, hl] at hnone
            exact absurd hnone (by simp)
          · exact ht
        simpa [processGroups, hl] using ih n g hrest hnone

/-- When every run label has a colormap entry, the group loop yields one
colored group per run, in order, and raises nothing. -/
theorem processGroups_mapped (cm : Colormap) (colorFn : String → Color) :
    ∀ runs : List (String × List AnnRecord),
      (∀ r ∈ runs, cm.lookup r.1 = some (colorFn r.1)) →
      processGroups cm (runs.map (fun r => (some r.1, r.2)))
        = (runs.map (fun r => (colorFn r.1, r.2)), none) := by
  intro runs
  induction runs with
  | nil => intro _; rfl
  | cons r rest ih =>
    intro hc
    have hr := hc r (by simp)
    have htail := ih (fun x hx => hc x (List.mem_cons_of_mem r hx))
    simp [processGroups, hr, htail]

/-! Helper lemmas about the `_girder_id` attribute. -/

/-- The post-resolution stage never writes the `_girder_id` attribute. -/
theorem afterResolve_girder (c : GClient) (st1 st2 : AnnotatorState)
    (h : afterResolve c st1 = .ok st2) : st2.girder_id = st1.girder_id := by
  unfold afterResolve at h
  split at h
  · exact Except.noConfusion h
  · split at h
    · exact Except.noConfusion h
    · injection h with h3
      rw [← h3]

/-- The `girder_id` setter never writes the `_girder_id` attribute (it
assigns the misspelled `_gider_id` instead). -/
theorem setGirderId_girder (c : GClient) (st : AnnotatorState)
    (gid : Option String) (st2 : AnnotatorState)
    (h : setGirderId c st gid = .ok st2) : st2.girder_id = st.girder_id := by
  cases gid with
  | none =>
    simp only [setGirderId] at h
    have h4 := afterResolve_girder c _ st2 h
    exact h4
  | some g =>
    simp only [setGirderId] at h
    split at h
    · exact Except.noConfusion h
    · have h4 := afterResolve_girder c _ st2 h
      exact h4

/-- No public mutation writes the `_girder_id` attribute. -/
theorem applyOp_girder (c : GClient) (st : AnnotatorState) (op : Op)
    (st2 : AnnotatorState) (h : applyOp c st op = .ok st2) :
    st2.girder_id = st.girder_id := by
  cases op with
  | opColormap cm =>
    simp only [applyOp] at h
    injection h with h2
    rw [← h2]
    rfl
  | opIsOverlayId b =>
    simp only [applyOp] at h
    injection h with h2
    rw [← h2]
    rfl
  | opGirderId gid =>
    simp only [applyOp] at h
    exact setGirderId_girder c st gid st2 h

/-- A successful sequence of public mutations preserves `_girder_id`. -/
theorem runOps_girder (c : GClient) :
    ∀ (ops : List Op) (st st2 : AnnotatorState),
      runOps c st ops = .ok st2 → st2.girder_id = st.girder_id := by
  intro ops
  induction ops with
  | nil =>
    intro st st2 h
    simp only [runOps] at h
    injection h with h2
    rw [← h2]
  | cons op ops ih =>
    intro st st2 h
    simp only [runOps] at h
    rcases hap : applyOp c st op with e | st1
    · rw [hap] at h
      exact Except.noConfusion h
    · rw [hap] at h
      have h1 := ih st1 st2 h
      have h2 := applyOp_girder c st op st1 hap
      rw [h1, h2]

/-! The claims. -/

/-- C2, counterexample: when `Image.open` fails with an IOError-class error
and the pytiff fallback also fails, the `image` property propagates the
fallback error (the bare `raise` re-raises the exception being handled in
the inner handler), not the original primary decode error, contradicting
the claim that the original error propagates. -/
theorem c2_counterexample :
    imageOp (ρ := Nat) (.error (.ioErr "pillow failed"))
        (.error (.ioErr "pytiff failed"))
      = (.error (.ioErr "pytiff failed"), false)
    ∧ PyExn.ioErr "pytiff failed" ≠ PyExn.ioErr "pillow failed" :=
  ⟨rfl, by decide⟩

/-- C2, amended: for every overlay file input on which the primary general
decoder fails with the caught IOError class and the fallback tiled-TIFF
decoder also fails, the image-acquisition operation propagates the fallback
decoder's error, not the original primary decode error. -/
theorem c2_amended {ρ : Type} (mp : String) (et : PyExn) :
    imageOp (.error (.ioErr mp)) (.error et : Except PyExn ρ) = (.error et, false) :=
  rfl

/-- C5: assigning a null identifier clears the derived state (item id,
overlay item id, overlay file and annotations all become unset) and, since
the result is a client-free expression equal for every pair of registry
clients, does so without any registry call. -/
theorem c5_null_clears (c c2 : GClient) (st : AnnotatorState) :
    setGirderId c st none
      = .ok { st with
          gider_id := none
          item_id := none
          overlay_item_id := none
          overlay_file := none
          annotations := none }
    ∧ setGirderId c st none = setGirderId c2 st none :=
  ⟨rfl, rfl⟩

/-- C6, counterexample: on the exit path where both decoders fail, the
`image` property propagates the error while the temporary file has not been
closed (the close call is only reached after a successful decode),
contradicting the claim of cleanup on every exit path. -/
theorem c6_counterexample :
    imageOp (ρ := Nat) (.error (.ioErr "primary decode failed"))
        (.error (.ioErr "fallback decode failed"))
      = (.error (.ioErr "fallback decode failed"), false) :=
  rfl

/-- C6, amended: the temporary file is closed before the `image` property
returns exactly on the successful exit paths (primary decode success or
fallback decode success); on every failing exit path — both decoders fail,
or an unexpected exception class — the error propagates without the close
being executed. -/
theorem c6_amended {ρ : Type} (pillow pytiff : Except PyExn ρ) :
    (imageOp pillow pytiff).2 = true
      ↔ ∃ img, (imageOp pillow pytiff).1 = .ok img := by
  cases pillow with
  | ok img => simp [imageOp]
  | error e =>
    cases e with
    | otherErr m => simp [imageOp]
    | ioErr m =>
      cases pytiff with
      | ok img => simp [imageOp]
      | error e2 => simp [imageOp]

/-- C10: a registry response in which the overlay item has one file whose
media type does not start with image passes the nonempty-files check, is
emptied by the media-type filter, and reaches the unguarded
`overlay_files[0]`, failing with IndexError rather than the documented
NotFoundError or AmbiguousError outcomes. -/
theorem c10_index_error :
    updateOverlayFile nonImageClient (some "ov1") = .error .indexError :=
  rfl

/-- C3: when the primary full-annotation-list call fails with the
client-error class (HTTP status 400), the fetch falls back to listing the
summaries and fetching each full record by id: the accumulated sequence is
exactly the per-id fetch mapped over the listing, so it has the same length
and order as the listing and each element equals the per-id fetch result;
any other error class (another HTTP status, or a non-HTTP exception)
propagates unrecovered. -/
theorem c3_fallback (c : GClient) (iid : String) :
    (c.getAnnsForItem iid = .error (.http 400) →
      updateAnns c (some iid)
        = .ok (some ((c.listAnns iid).map (fun s => c.getAnnById s.id)))
      ∧ ((c.listAnns iid).map (fun s => c.getAnnById s.id)).length
          = (c.listAnns iid).length
      ∧ ∀ i : Fin (c.listAnns iid).length,
          ((c.listAnns iid).map (fun s => c.getAnnById s.id)).get
              ⟨i, by simp⟩
            = c.getAnnById ((c.listAnns iid).get i).id)
    ∧ (∀ status : Nat, status ≠ 400 →
        c.getAnnsForItem iid = .error (.http status) →
        updateAnns c (some iid) = .error (.client (.http status)))
    ∧ (∀ m : String, c.getAnnsForItem iid = .error (.transport m) →
        updateAnns c (some iid) = .error (.client (.transport m))) := by
  refine ⟨?_, ?_, ?_⟩
  · intro h
    refine ⟨?_, by simp, ?_⟩
    · simp [updateAnns, h]
    · intro i
      simp [List.get_eq_getElem, List.getElem_map]
  · intro status hne h
    simp [updateAnns, h, hne]
  · intro m h
    simp [updateAnns, h]

/-- C3, witness: against a registry whose primary call fails with status
400 and which serves two summaries, the fallback accumulates exactly the
two per-id records; against one failing with status 500, the error
propagates. -/
theorem c3_fallback_witness :
    updateAnns fallbackClient (some "i1") = .ok (some [annA, annB])
    ∧ updateAnns errorClient (some "i1") = .error (.client (.http 500)) := by
  constructor
  · have h := ((c3_fallback fallbackClient "i1").1 rfl).1
    exact h.trans (by rfl)
  · exact (c3_fallback errorClient "i1").2.1 500 (by decide) rfl

/-- C4: in base-item mode (`is_overlay_id` false), assigning an identifier
fails with the no-overlay error (NotFoundError kind) when the registry
returns zero overlays for the item, fails with the multiple-overlays error
(AmbiguousError kind) when it returns more than one, and on exactly one
overlay any successful assignment stores the identifier as the item id and
that overlay's `overlayItemId` as the overlay item id. -/
theorem c4_resolution (c : GClient) (st : AnnotatorState) (g : String)
    (hmode : st.is_overlay_id = false) :
    (c.getOverlaysByItem g = [] →
      setGirderId c st (some g) = .error (.noOverlayForItem g))
    ∧ (∀ (o1 o2 : Overlay) (os : List Overlay),
        c.getOverlaysByItem g = o1 :: o2 :: os →
        setGirderId c st (some g) = .error .multipleOverlays)
    ∧ (∀ (ov : Overlay) (st2 : AnnotatorState),
        c.getOverlaysByItem g = [ov] →
        setGirderId c st (some g) = .ok st2 →
        st2.item_id = some g ∧ st2.overlay_item_id = some ov.overlayItemId) := by
  refine ⟨?_, ?_, ?_⟩
  · intro hlist
    simp [setGirderId, resolvePair, hmode, hlist]
  · intro o1 o2 os hlist
    simp [setGirderId, resolvePair, hmode, hlist]
  · intro ov st2 hlist hok
    have hres : resolvePair c st.is_overlay_id g = .ok (g, ov.overlayItemId) := by
      simp [resolvePair, hmode, hlist]
    simp only [setGirderId, hres] at hok
    unfold afterResolve at hok
    split at hok
    · exact Except.noConfusion hok
    · split at hok
      · exact Except.noConfusion hok
      · injection hok with h3
        rw [← h3]
        exact ⟨rfl, rfl⟩

/-- C4, witness: a registry with no overlay yields the no-overlay error,
and one with the single linked overlay `demoOverlay` stores item id
`item1` and overlay item id `ov1`. -/
theorem c4_resolution_witness :
    setGirderId emptyClient initState (some "itemX")
      = .error (.noOverlayForItem "itemX")
    ∧ setGirderId demoClient initState (some "item1") = .ok demoFinal
    ∧ demoFinal.item_id = some "item1"
    ∧ demoFinal.overlay_item_id = some "ov1" := by
  refine ⟨(c4_resolution emptyClient initState "itemX" rfl).1 rfl, rfl, ?_⟩
  exact (c4_resolution demoClient initState "item1" rfl).2.2 demoOverlay demoFinal
    rfl rfl

/-- C7: for every rectangle element whose center has coordinates `x`, `y`,
the renderer issues a filled-rectangle call whose corners are the center
point and the point displaced by the element's width and height, with
outline and fill both the group's color; under the drawing model, a pixel
is covered by that call exactly when it lies in the inclusive box between
those corners. -/
theorem c7_rectangle (e : Element) (color : Color) (x y : Int)
    (rest : List Int) (p : Int × Int)
    (htype : e.type = "rectangle") (hcenter : e.center = x :: y :: rest) :
    drawElement color e
      = .ok (.rectangle [(x, y), (x + e.width, y + e.height)] color color)
    ∧ (DrawCmd.covers
        (.rectangle [(x, y), (x + e.width, y + e.height)] color color) p
      ↔ (x ≤ p.1 ∧ p.1 ≤ x + e.width ∧ y ≤ p.2 ∧ p.2 ≤ y + e.height)) := by
  constructor
  · simp [drawElement, htype, hcenter, xyOf]
  · simp [DrawCmd.covers]

/-- C7, witness: a rectangle with center (0,0), width 5 and height 5 is
drawn as the filled box with corners (0,0) and (5,5), and the pixel (3,4)
is covered exactly because it lies within that inclusive box. -/
theorem c7_rectangle_witness :
    drawElement "red" rectDemo
      = .ok (.rectangle [(0, 0), (5, 5)] "red" "red")
    ∧ (DrawCmd.covers (.rectangle [(0, 0), (5, 5)] "red" "red") (3, 4)
      ↔ ((0 : Int) ≤ 3 ∧ (3 : Int) ≤ 5 ∧ (0 : Int) ≤ 4 ∧ (4 : Int) ≤ 5)) := by
  have h := c7_rectangle rectDemo "red" 0 0 [] (3, 4) rfl rfl
  exact h

/-- C1, counterexample: with the colormap mapping `A` to red, the sequence
consisting of a record labeled `A`, an unlabeled record, and another record
labeled `A` yields two groups, not the single group the claim asserts: the
unlabeled record is dropped, but its presence splits the run in two. -/
theorem c1_counterexample :
    annsIterator (some cmA) (some [annA, annU, annA2])
      = ([("red", [annA]), ("red", [annA2])], none)
    ∧ ([("red", [annA]), ("red", [annA2])]
        : List (Color × List AnnRecord)).length ≠ 1 :=
  ⟨rfl, by decide⟩

/-- C1, amended: for every annotation sequence whose equal labels form
contiguous runs and every colormap covering all present labels, grouping
yields exactly one (color, group) pair per run, in source order; and for
such a sequence with one unlabeled record inserted in the middle of a run,
the unlabeled record is dropped (it appears in no group) but the run is
split into two groups carrying the same color, one per remaining sub-run
(it is not preserved as a single group). -/
theorem c1_amended :
    (∀ (runs : List (String × List AnnRecord)) (cm : Colormap)
       (colorFn : String → Color),
      (∀ r ∈ runs, r.2 ≠ []) →
      (∀ r ∈ runs, ∀ a ∈ r.2, a.body.name = some r.1) →
      (runs.map Prod.fst).Nodup →
      (∀ r ∈ runs, cm.lookup r.1 = some (colorFn r.1)) →
      annsIterator (some cm) (some ((runs.map Prod.snd).flatten))
        = (runs.map (fun r => (colorFn r.1, r.2)), none))
    ∧ (∀ (A : String) (c : Color) (cm : Colormap) (u : AnnRecord)
         (xs ys : List AnnRecord),
        xs ≠ [] → ys ≠ [] →
        (∀ a ∈ xs, a.body.name = some A) →
        (∀ a ∈ ys, a.body.name = some A) →
        u.body.name = none → cm.lookup A = some c →
        annsIterator (some cm) (some (xs ++ u :: ys))
          = ([(c, xs), (c, ys)], none)) := by
  constructor
  · intro runs cm colorFn hne hhom hnd hcolor
    have hpw : runs.Pairwise (fun r s => r.1 ≠ s.1) := List.pairwise_map.mp hnd
    have hruns' : (runs.map
        (fun r => ((some r.1 : Option String), r.2))).Pairwise
          (fun r s => r.1 ≠ s.1) := by
      rw [List.pairwise_map]
      refine hpw.imp ?_
      intro a b hab hsome
      exact hab (Option.some.inj hsome)
    have hchain := hruns'.chain'
    have hne' : ∀ r ∈ runs.map (fun r => ((some r.1 : Option String), r.2)),
        r.2 ≠ [] := by
      intro r hr
      obtain ⟨r0, hr0, rfl⟩ := List.mem_map.mp hr
      exact hne r0 hr0
    have hhom' : ∀ r ∈ runs.map (fun r => ((some r.1 : Option String), r.2)),
        ∀ a ∈ r.2, keyfunc a = r.1 := by
      intro r hr a ha
      obtain ⟨r0, hr0, rfl⟩ := List.mem_map.mp hr
      exact hhom r0 hr0 a ha
    have hgb := groupby_runs_join keyfunc
      (runs.map (fun r => ((some r.1 : Option String), r.2))) hne' hhom' hchain
    have hflat : ((runs.map
          (fun r => ((some r.1 : Option String), r.2))).map Prod.snd).flatten
        = (runs.map Prod.snd).flatten := by
      rw [List.map_map]
      rfl
    rw [hflat] at hgb
    show processGroups cm (groupby keyfunc ((runs.map Prod.snd).flatten))
        = (runs.map (fun r => (colorFn r.1, r.2)), none)
    rw [hgb]
    exact processGroups_mapped cm colorFn runs hcolor
  · intro A c cm u xs ys hxs hys hxshom hyshom hu hcm
    have hkx : ∀ a ∈ xs, keyfunc a = some A := fun a ha => hxshom a ha
    have hky : ∀ a ∈ ys, keyfunc a = some A := fun a ha => hyshom a ha
    have h1 : groupby keyfunc ys = [(some A, ys)] :=
      groupby_single_run keyfunc (some A) ys hys hky
    have hku : keyfunc u = none := hu
    have h2 : groupby keyfunc (u :: ys) = (none, [u]) :: [(some A, ys)] := by
      show groupbyCons keyfunc u (groupby keyfunc ys) = _
      rw [h1]
      simp [groupbyCons, hku]
    have h3 : groupby keyfunc (xs ++ u :: ys)
        = (some A, xs) :: groupby keyfunc (u :: ys) := by
      apply groupby_append_run keyfunc (some A) xs (u :: ys) hxs hkx
      intro k2 g2 t hh
      rw [h2] at hh
      obtain ⟨hp, _⟩ := List.cons.inj hh
      have hk2 : none = k2 := congrArg Prod.fst hp
      rw [← hk2]
      simp
    show processGroups cm (groupby keyfunc (xs ++ u :: ys))
        = ([(c, xs), (c, ys)], none)
    rw [h3, h2]
    simp [processGroups, hcm]

/-- C1, witness: the contiguous-run sequence with runs `A`, `A`, `B` and a
complete colormap yields one pair per run in order; inserting an unlabeled
record in the middle of a run of two `A` records drops it and yields two
red groups. -/
theorem c1_amended_witness :
    annsIterator (some cmAB) (some [annA, annA2, annB])
      = ([("red", [annA, annA2]), ("blue", [annB])], none)
    ∧ annsIterator (some cmA) (some [annA, annU, annA2])
      = ([("red", [annA]), ("red", [annA2])], none) := by
  constructor
  · exact c1_amended.1 [("A", [annA, annA2]), ("B", [annB])] cmAB
      (fun n => if n = "A" then "red" else "blue")
      (by decide) (by decide) (by decide) (by decide)
  · exact c1_amended.2 "A" "red" cmA annU [annA] [annA2]
      (by decide) (by decide) (by decide) (by decide) rfl rfl

/-- C8: grouping over a set annotation sequence fails with the no-colormap
error before yielding any group when the colormap is unset; and whenever
some present label has no colormap entry, it fails with a missing-color
error naming a label that is absent from the colormap.  (Absent entries are
thus an error at grouping time: the colormap setter itself performs no
label validation, being a plain JSON load.) -/
theorem c8_config_errors :
    (∀ anns : List AnnRecord,
      annsIterator none (some anns) = ([], some .noColorMapping))
    ∧ (∀ (cm : Colormap) (anns : List AnnRecord) (a : AnnRecord) (n : String),
        a ∈ anns → a.body.name = some n → cm.lookup n = none →
        ∃ m, (annsIterator (some cm) (some anns)).2
            = some (.noColorForLabel m) ∧ cm.lookup m = none) := by
  constructor
  · intro anns
    rfl
  · intro cm anns a n hmem hname hnone
    obtain ⟨g, hg⟩ := groupby_key_mem keyfunc anns a hmem
    have hkey : keyfunc a = some n := hname
    rw [hkey] at hg
    exact processGroups_missing cm (groupby keyfunc anns) n g hg hnone

/-- C8, witness: with no colormap set, grouping `[annB]` raises the
no-colormap error having yielded nothing; with colormap `cmA` (no entry for
`B`), grouping `[annB]` raises the missing-color error naming `B`, which is
indeed absent from `cmA`. -/
theorem c8_config_errors_witness :
    annsIterator none (some [annB]) = ([], some .noColorMapping)
    ∧ (annsIterator (some cmA) (some [annB])).2 = some (.noColorForLabel "B")
    ∧ cmA.lookup "B" = none := by
  obtain ⟨m, hm, hl⟩ := c8_config_errors.2 cmA [annB] annB "B"
    (by simp) rfl rfl
  exact ⟨c8_config_errors.1 [annB], rfl, rfl⟩

/-- C9: over every sequence of public mutations run from the initial state,
including successful non-null identifier assignments, the attribute read by
the public `girder_id` getter remains `none`: the setter stores the
identifier under the misspelled `_gider_id` attribute, never under the
`_girder_id` attribute the getter reads. -/
theorem c9_getter_none (c : GClient) (ops : List Op) (st2 : AnnotatorState)
    (h : runOps c initState ops = .ok st2) :
    girderIdGet st2 = none := by
  have h1 := runOps_girder c ops initState st2 h
  show st2.girder_id = none
  exact h1.trans rfl

/-- C9, witness: after setting the colormap, base-item mode, and then
successfully assigning identifier `item1`, the getter still returns
`none`. -/
theorem c9_getter_none_witness :
    runOps demoClient initState
        [Op.opColormap (some cmAB), Op.opIsOverlayId false,
         Op.opGirderId (some "item1")]
      = .ok demoFinalCm
    ∧ girderIdGet demoFinalCm = none := by
  constructor
  · rfl
  · exact c9_getter_none demoClient
      [Op.opColormap (some cmAB), Op.opIsOverlayId false,
       Op.opGirderId (some "item1")] demoFinalCm rfl

end AnnotateLabels
